import Mathlib

/-!
Verification of the pattern-based trading decision engine in
`src/strategies/pattern_strategy.py` (class `PatternStrategy`).

Prices, rates and times are embedded as rationals; Python dictionaries
become association lists; the day and pattern labels stay the strings the
source uses ("Monday", "周一", "continuous_rise", ...). The only Python
exception reachable inside the modelled operations is the `KeyError` that
`risk_multiplier[risk_level]` raises on an unknown risk level, so
`calculate_position_size` and `should_trade` return `Except String`.
-/

namespace PatternStrategy

/-- One value of the nested `pattern_stats` dictionary: the statistics the
strategy reads (the win_rate and return_rate fields). -/
structure StatEntry where
  winRate : ℚ
  returnRate : ℚ
deriving DecidableEq, Repr

/-- `self.system.pattern_stats`: a dict from day name to a dict from
pattern label to statistics, embedded as nested association lists. -/
abbrev PatternStats := List (String × List (String × StatEntry))

/-- `day in pattern_stats and pattern in pattern_stats[day]` followed by the
double subscript, as one lookup. -/
def statsFind (stats : PatternStats) (day pattern : String) : Option StatEntry :=
  match stats.lookup day with
  | some dayStats => dayStats.lookup pattern
  | none => none

/-- Last element of the first half `price_history[:len//2]`, as
`first_half.iloc[-1]`. -/
def firstHalfLast (prices : List ℚ) : ℚ :=
  (prices.take (prices.length / 2)).getLastD 0

/-- First element of the first half, as `first_half.iloc[0]`. -/
def firstHalfFirst (prices : List ℚ) : ℚ :=
  (prices.take (prices.length / 2)).headD 0

/-- Last element of the second half `price_history[len//2:]`, as
`second_half.iloc[-1]`. -/
def secondHalfLast (prices : List ℚ) : ℚ :=
  (prices.drop (prices.length / 2)).getLastD 0

/-- First element of the second half, as `second_half.iloc[0]`. -/
def secondHalfFirst (prices : List ℚ) : ℚ :=
  (prices.drop (prices.length / 2)).headD 0

/-- The if/elif cascade shared by the 3-point and the half-trend analysis in
`analyze_pattern`: rise-then-fall, fall-then-rise, continuous rise,
continuous fall. -/
def trendLabel (firstTrend secondTrend : Bool) : String :=
  if firstTrend && !secondTrend then "rise_then_fall"
  else if !firstTrend && secondTrend then "fall_then_rise"
  else if firstTrend && secondTrend then "continuous_rise"
  else "continuous_fall"

/-- `PatternStrategy.analyze_pattern`: classify a price history into one of
the pattern labels. Fewer than 2 points gives insufficient data; exactly 2
points compares the pair; 4 or more points compares each half; exactly 3
points compares the two successive changes. -/
def analyzePattern (prices : List ℚ) : String :=
  if prices.length < 2 then "insufficient_data"
  else if prices.length = 2 then
    if prices.getD 1 0 > prices.getD 0 0 then "continuous_rise"
    else "continuous_fall"
  else if 4 ≤ prices.length then
    trendLabel (decide (firstHalfLast prices > firstHalfFirst prices))
      (decide (secondHalfLast prices > secondHalfFirst prices))
  else
    trendLabel (decide (prices.getD 1 0 > prices.getD 0 0))
      (decide (prices.getD 2 0 > prices.getD 1 0))

/-- The `risk_multiplier` dict subscripted at `risk_level`; `none` is the
`KeyError` an unknown risk level raises. -/
def riskMultiplierGet (riskLevel : String) : Option ℚ :=
  if riskLevel = "low" then some 0.1
  else if riskLevel = "medium" then some 0.25
  else if riskLevel = "high" then some 0.5
  else none

/-- `PatternStrategy.calculate_position_size`: Kelly sizing from the stats
entry of `(day, pattern)`, scaled by the risk multiplier and capped at 0.5.
Empty stats or a missing entry fall back to the conservative 0.1. -/
def calculatePositionSize (stats : PatternStats) (pattern day riskLevel : String) :
    Except String ℚ :=
  if stats.isEmpty then .ok 0.1
  else
    match statsFind stats day pattern with
    | some entry =>
        let kelly : ℚ :=
          if entry.returnRate > 0 then
            max 0 (entry.winRate - (1 - entry.winRate) / (entry.returnRate / 0.01))
          else 0
        match riskMultiplierGet riskLevel with
        | some multiplier => .ok (min (kelly * multiplier) 0.5)
        | none => .error "KeyError: RISK_LEVEL"
    | none => .ok 0.1

/-- `PatternStrategy.set_stop_loss`: an empty volatility dict gives the flat
2 percent stop `price * 0.98`; otherwise the volatility of the day (default
0.02) picks a multiplier tier and the stop is `price * (1 - vol * mult)`. -/
def setStopLoss (volatilityData : List (String × ℚ)) (price : ℚ) (day : String) : ℚ :=
  if volatilityData.isEmpty then price * 0.98
  else
    let volatility := (volatilityData.lookup day).getD 0.02
    let multiplier : ℚ :=
      if volatility > 0.025 then 1.5
      else if volatility < 0.02 then 2.0
      else 1.8
    price * (1 - volatility * multiplier)

/-- `weekday_map.get(day, day)`: English day name to Chinese day name, an
unknown string passing through unchanged. -/
def weekdayMapGet (day : String) : String :=
  if day = "Monday" then "周一"
  else if day = "Tuesday" then "周二"
  else if day = "Wednesday" then "周三"
  else if day = "Thursday" then "周四"
  else if day = "Friday" then "周五"
  else if day = "Saturday" then "周六"
  else if day = "Sunday" then "周日"
  else day

/-- `previous_day_map.get(current_day, current_day)`: the cyclic predecessor
of a Chinese day name, an unknown string passing through unchanged. -/
def previousDayMapGet (day : String) : String :=
  if day = "周一" then "周日"
  else if day = "周二" then "周一"
  else if day = "周三" then "周二"
  else if day = "周四" then "周三"
  else if day = "周五" then "周四"
  else if day = "周六" then "周五"
  else if day = "周日" then "周六"
  else day

/-- The previous day `should_trade` computes for an incoming day string. -/
def prevDayOf (day : String) : String :=
  previousDayMapGet (weekdayMapGet day)

/-- The hardcoded deny-list check of `should_trade`: previous day Friday
with a continuous rise, or previous day Saturday with a fall then rise. -/
def forbiddenPair (previousDay pattern : String) : Prop :=
  (previousDay = "周五" ∧ pattern = "continuous_rise") ∨
  (previousDay = "周六" ∧ pattern = "fall_then_rise")

instance (previousDay pattern : String) : Decidable (forbiddenPair previousDay pattern) := by
  unfold forbiddenPair
  infer_instance

/-- The seven English day names accepted at the boundary. -/
def weekDays : List String :=
  ["Monday", "Tuesday", "Wednesday", "Thursday", "Friday", "Saturday", "Sunday"]

/-- `PatternStrategy.should_trade`: decide whether to open a long position.
Requires at least 2 price points and nonempty stats, vetoes the deny-list
pairs, then trades exactly when the stats entry of the previous day and the
pattern has a win rate above 0.55. -/
def shouldTrade (stats : PatternStats) (prices : List ℚ) (day riskLevel : String) :
    Except String (Bool × String × ℚ) :=
  if prices.length < 2 then .ok (false, "none", 0)
  else
    let pattern := analyzePattern prices
    if stats.isEmpty then .ok (false, "none", 0)
    else
      let currentDay := weekdayMapGet day
      let previousDay := previousDayMapGet currentDay
      if forbiddenPair previousDay pattern then .ok (false, "none", 0)
      else
        match statsFind stats previousDay pattern with
        | some entry =>
            if entry.winRate > 0.55 then
              match calculatePositionSize stats pattern previousDay riskLevel with
              | .ok positionSize => .ok (true, "long", positionSize)
              | .error e => .error e
            else .ok (false, "none", 0)
        | none => .ok (false, "none", 0)

/-- The position dict fields the lifecycle operations read and write. Times
are hours since an arbitrary epoch. -/
structure Position where
  entryPrice : ℚ
  stopLoss : ℚ
  takeProfit : ℚ
  entryTime : ℚ
deriving DecidableEq, Repr

/-- The trailing-stop candidate of `update_position`: the break-even
cascade on the unrealized profit percentage, defaulting to the current
stop. -/
def trailingCandidate (position : Position) (currentPrice : ℚ) : ℚ :=
  let profitPct := (currentPrice - position.entryPrice) / position.entryPrice
  if profitPct > 0.03 then position.entryPrice * 1.01
  else if profitPct > 0.02 then position.entryPrice * 1.005
  else if profitPct > 0.01 then position.entryPrice
  else position.stopLoss

/-- `PatternStrategy.update_position` restricted to its effect on the
position dict: the stop loss field becomes the maximum of the candidate
and the old stop loss. -/
def updatePosition (position : Position) (currentPrice : ℚ) : Position :=
  { position with stopLoss := max (trailingCandidate position currentPrice) position.stopLoss }

/-- `PatternStrategy.check_exit_signals`: action and reason, with the time
comparison `datetime.now() - entry_time > timedelta(hours=24)` taking the
current time as an argument. -/
def checkExitSignals (position : Option Position) (currentPrice nowTime : ℚ) :
    String × String :=
  match position with
  | none => ("no_position", "")
  | some p =>
      if currentPrice ≤ p.stopLoss then ("close_position", "stop_loss")
      else if currentPrice ≥ p.takeProfit then ("close_position", "take_profit")
      else if nowTime - p.entryTime > 24 then ("close_position", "time_limit")
      else ("hold_position", "")

/-- C2: `update_position` applies the trailing-stop ratchet, making the new
stop loss `max(candidate, old stop loss)`; hence one update never lowers the
stop, and over any sequence of updates with arbitrary prices the stop loss
never decreases. -/
theorem updatePosition_stopLoss_ratchet (p : Position) (c : ℚ) (cs : List ℚ) :
    (updatePosition p c).stopLoss = max (trailingCandidate p c) p.stopLoss ∧
    p.stopLoss ≤ (updatePosition p c).stopLoss ∧
    p.stopLoss ≤ (cs.foldl updatePosition p).stopLoss := by
  refine ⟨rfl, le_max_right _ _, ?_⟩
  induction cs generalizing p with
  | nil => exact le_refl _
  | cons c0 cs0 ih =>
      simp only [List.foldl_cons]
      exact le_trans (le_max_right _ _) (ih (updatePosition p c0))

/-- C4: `check_exit_signals` evaluates its conditions in the fixed order
stop loss, then take profit, then the 24 hour time limit, else hold; when a
price satisfies both the stop and the target threshold at once, the reason
returned is the stop loss. -/
theorem checkExitSignals_priority (p : Position) (cp t : ℚ) :
    (cp ≤ p.stopLoss → checkExitSignals (some p) cp t = ("close_position", "stop_loss")) ∧
    (¬ cp ≤ p.stopLoss → cp ≥ p.takeProfit →
      checkExitSignals (some p) cp t = ("close_position", "take_profit")) ∧
    (¬ cp ≤ p.stopLoss → ¬ cp ≥ p.takeProfit → t - p.entryTime > 24 →
      checkExitSignals (some p) cp t = ("close_position", "time_limit")) ∧
    (¬ cp ≤ p.stopLoss → ¬ cp ≥ p.takeProfit → ¬ t - p.entryTime > 24 →
      checkExitSignals (some p) cp t = ("hold_position", "")) ∧
    (cp ≤ p.stopLoss → cp ≥ p.takeProfit →
      checkExitSignals (some p) cp t = ("close_position", "stop_loss")) := by
  refine ⟨?_, ?_, ?_, ?_, ?_⟩ <;> intros <;> simp [checkExitSignals, *]

/-- Witness for C4: a position whose stop loss (100) lies above its take
profit (90) and a price (95) satisfying both thresholds exits with reason
stop loss. -/
theorem checkExitSignals_priority_witness :
    ((95:ℚ) ≤ (⟨100, 100, 90, 0⟩ : Position).stopLoss) ∧
    ((95:ℚ) ≥ (⟨100, 100, 90, 0⟩ : Position).takeProfit) ∧
    checkExitSignals (some ⟨100, 100, 90, 0⟩) 95 0 = ("close_position", "stop_loss") := by
  refine ⟨by norm_num, by norm_num, ?_⟩
  exact (checkExitSignals_priority ⟨100, 100, 90, 0⟩ 95 0).2.2.2.2
    (by norm_num) (by norm_num)

/-- C6: `analyze_pattern` is total; with fewer than 2 points it returns
insufficient data, and on a 2 point series it returns a continuous rise
exactly when the second point exceeds the first, a continuous fall
otherwise (equal values fall). -/
theorem analyzePattern_short (prices : List ℚ) (a b : ℚ) (h : prices.length < 2) :
    analyzePattern prices = "insufficient_data" ∧
    (analyzePattern [a, b] = "continuous_rise" ↔ b > a) ∧
    (analyzePattern [a, b] = "continuous_fall" ↔ ¬ b > a) := by
  refine ⟨by simp [analyzePattern, h], ?_, ?_⟩ <;> by_cases hab : b > a <;>
    simp [analyzePattern, hab]

/-- Witness for C6: the singleton series has insufficient data, and the
series 1, 2 is a continuous rise. -/
theorem analyzePattern_short_witness :
    ([(5:ℚ)].length < 2) ∧
    analyzePattern [(5:ℚ)] = "insufficient_data" ∧
    (analyzePattern [(1:ℚ), 2] = "continuous_rise" ↔ (2:ℚ) > 1) ∧
    (analyzePattern [(1:ℚ), 2] = "continuous_fall" ↔ ¬ (2:ℚ) > 1) :=
  ⟨by norm_num, analyzePattern_short [5] 1 2 (by norm_num)⟩

/-- A valid risk level makes `calculate_position_size` return a value on
every input. -/
theorem calculatePositionSize_isOk (stats : PatternStats) (pattern day riskLevel : String)
    (m : ℚ) (hrisk : riskMultiplierGet riskLevel = some m) :
    ∃ v, calculatePositionSize stats pattern day riskLevel = .ok v := by
  unfold calculatePositionSize
  split
  · exact ⟨_, rfl⟩
  · split
    · simp only [hrisk]
      exact ⟨_, rfl⟩
    · exact ⟨_, rfl⟩

/-- A valid risk level makes `should_trade` return a value on every
input. -/
theorem shouldTrade_isOk (stats : PatternStats) (prices : List ℚ) (day riskLevel : String)
    (m : ℚ) (hrisk : riskMultiplierGet riskLevel = some m) :
    ∃ r, shouldTrade stats prices day riskLevel = .ok r := by
  unfold shouldTrade
  split
  · exact ⟨_, rfl⟩
  · dsimp only
    split
    · exact ⟨_, rfl⟩
    · split
      · exact ⟨_, rfl⟩
      · split
        · split
          · obtain ⟨v, hv⟩ := calculatePositionSize_isOk stats
              (analyzePattern prices) (previousDayMapGet (weekdayMapGet day)) riskLevel m hrisk
            simp only [hv]
            exact ⟨_, rfl⟩
          · exact ⟨_, rfl⟩
        · exact ⟨_, rfl⟩

/-- C8 counterexample: with an entirely empty volatility table the code
returns the flat stop `price * 0.98`, while the claimed formula with the
default volatility 0.02 and the mid multiplier 1.8 gives `price * 0.964`. -/
theorem setStopLoss_empty_counterexample :
    setStopLoss [] 100 "周一" = 98 ∧
    (100:ℚ) * (1 - 0.02 * 1.8) = 96.4 ∧
    setStopLoss [] 100 "周一" ≠ (100:ℚ) * (1 - 0.02 * 1.8) := by
  norm_num [setStopLoss]

/-- C8 amended: whenever the volatility table is nonempty, the initial stop
loss equals entry price times (1 - day volatility * multiplier), the
volatility defaulting to 0.02 when the day has no entry, with multiplier
1.5 above 0.025, 2.0 below 0.02 and 1.8 otherwise; with an entirely empty
table the code instead returns the flat entry price * 0.98. -/
theorem setStopLoss_formula (vol : List (String × ℚ)) (price : ℚ) (day : String)
    (hpos : 0 < price) (hne : vol ≠ []) :
    setStopLoss vol price day =
      price * (1 - ((vol.lookup day).getD 0.02) *
        (if ((vol.lookup day).getD 0.02) > 0.025 then 1.5
         else if ((vol.lookup day).getD 0.02) < 0.02 then 2.0 else 1.8)) ∧
    setStopLoss [] price day = price * 0.98 := by
  constructor
  · cases vol with
    | nil => exact absurd rfl hne
    | cons v vs => rfl
  · rfl

/-- Witness for the amended C8: volatility 0.03 on the matching day picks
multiplier 1.5, and the empty table gives the flat 2 percent stop. -/
theorem setStopLoss_formula_witness :
    setStopLoss [("周一", (0.03:ℚ))] 100 "周一" = 95.5 ∧
    setStopLoss [] (100:ℚ) "周一" = 98 := by
  have h := setStopLoss_formula [("周一", (0.03:ℚ))] 100 "周一" (by norm_num)
    (by simp)
  refine ⟨?_, ?_⟩
  · rw [h.1]
    norm_num [List.lookup]
  · rw [h.2]
    norm_num

/-- C9 counterexample: the unrecognized day string Funday makes
`should_trade` return the ordinary refusal, not a hard error, and
non-positive prices flow through classification and stop loss placement,
producing ordinary numeric results. -/
theorem invalidInput_noHardError_counterexample :
    shouldTrade [("周一", [("continuous_rise", ⟨0.9, 0.01⟩)])] [100, 105] "Funday" "low"
      = .ok (false, "none", 0) ∧
    (¬ ∃ msg, shouldTrade [("周一", [("continuous_rise", ⟨0.9, 0.01⟩)])] [100, 105]
      "Funday" "low" = .error msg) ∧
    analyzePattern [(-5:ℚ), -10] = "continuous_fall" ∧
    setStopLoss [("周一", (0.03:ℚ))] (-100) "周一" = -95.5 := by
  have hpat : analyzePattern [(100:ℚ), 105] = "continuous_rise" := by
    norm_num [analyzePattern]
  have hday : previousDayMapGet (weekdayMapGet "Funday") = "Funday" := by decide
  have hsf : statsFind [("周一", [("continuous_rise", (⟨0.9, 0.01⟩ : StatEntry))])]
      "Funday" "continuous_rise" = none := by decide
  have h1 : shouldTrade [("周一", [("continuous_rise", ⟨0.9, 0.01⟩)])] [100, 105]
      "Funday" "low" = .ok (false, "none", 0) := by
    unfold shouldTrade
    rw [if_neg (by norm_num : ¬ ([(100:ℚ), 105].length < 2))]
    dsimp only
    rw [hpat, hday]
    rw [if_neg (by decide : ¬ forbiddenPair "Funday" "continuous_rise")]
    rw [hsf]
    rfl
  refine ⟨h1, ?_, ?_, ?_⟩
  · rintro ⟨msg, hmsg⟩
    rw [h1] at hmsg
    exact Except.noConfusion hmsg
  · norm_num [analyzePattern]
  · norm_num [setStopLoss, List.lookup]

/-- C9 amended: the code silently coerces instead of failing hard: an
unrecognized day string passes through the weekday map unchanged and
`should_trade` still returns an ordinary decision for any valid risk level,
while a non-positive price is accepted by the stop loss computation, which
returns its usual numeric result. -/
theorem invalidInput_silent_coercion (day riskLevel : String) (stats : PatternStats)
    (prices : List ℚ) (m price : ℚ)
    (hday : day ∉ weekDays) (hrisk : riskMultiplierGet riskLevel = some m)
    (hprice : price ≤ 0) :
    weekdayMapGet day = day ∧
    (∃ r, shouldTrade stats prices day riskLevel = .ok r) ∧
    setStopLoss [] price day = price * 0.98 := by
  refine ⟨?_, shouldTrade_isOk stats prices day riskLevel m hrisk, rfl⟩
  simp only [weekDays, List.mem_cons, List.not_mem_nil, or_false, not_or] at hday
  obtain ⟨h1, h2, h3, h4, h5, h6, h7⟩ := hday
  simp [weekdayMapGet, h1, h2, h3, h4, h5, h6, h7]

/-- Witness for the amended C9: Funday with risk low and price -1. -/
theorem invalidInput_silent_coercion_witness :
    ("Funday" ∉ weekDays) ∧ riskMultiplierGet "low" = some 0.1 ∧ ((-1:ℚ) ≤ 0) ∧
    weekdayMapGet "Funday" = "Funday" ∧
    (∃ r, shouldTrade [] [] "Funday" "low" = .ok r) ∧
    setStopLoss [] (-1) "Funday" = (-1) * 0.98 := by
  have h := invalidInput_silent_coercion "Funday" "low" [] [] 0.1 (-1)
    (by decide) rfl (by norm_num)
  exact ⟨by decide, rfl, by norm_num, h.1, h.2.1, h.2.2⟩

/-- C3: whenever the computed previous day and the classified pattern form
a deny-listed pair (Friday with continuous rise, or Saturday with fall then
rise), `should_trade` refuses with (false, none, 0) regardless of the
statistics table and risk level. -/
theorem shouldTrade_forbidden_veto (stats : PatternStats) (prices : List ℚ)
    (day riskLevel : String)
    (h : forbiddenPair (prevDayOf day) (analyzePattern prices)) :
    shouldTrade stats prices day riskLevel = .ok (false, "none", 0) := by
  unfold prevDayOf at h
  unfold shouldTrade
  split
  · rfl
  · dsimp only
    split
    · rfl
    · rfl

/-- Witness for C3: trading on Saturday after a two point rise looks up
previous day Friday with a continuous rise, which is vetoed even though the
stats table carries a 0.99 win rate for that pair. -/
theorem shouldTrade_forbidden_veto_witness :
    forbiddenPair (prevDayOf "Saturday") (analyzePattern [100, 105]) ∧
    shouldTrade [("周五", [("continuous_rise", ⟨0.99, 0.05⟩)])] [100, 105] "Saturday" "low"
      = .ok (false, "none", 0) := by
  have hf : forbiddenPair (prevDayOf "Saturday") (analyzePattern [100, 105]) := by
    have hp : analyzePattern [100, 105] = "continuous_rise" := by
      norm_num [analyzePattern]
    rw [hp]
    left
    exact ⟨by decide, rfl⟩
  exact ⟨hf, shouldTrade_forbidden_veto _ _ _ _ hf⟩

/-- C10: a concrete stats table whose entry for the previous day and
pattern has a win rate above 0.55 but a non-positive return rate makes
`should_trade` approve a long trade of size exactly zero. -/
theorem shouldTrade_zero_size_trade :
    shouldTrade [("周日", [("continuous_rise", ⟨0.6, -0.01⟩)])] [100, 105] "Monday" "low"
      = .ok (true, "long", 0) := by
  norm_num [shouldTrade, analyzePattern, statsFind, weekdayMapGet, previousDayMapGet,
    forbiddenPair, calculatePositionSize, riskMultiplierGet]
  decide

/-- Evaluation of `calculate_position_size` when the stats entry exists
and the risk level is valid. -/
theorem calculatePositionSize_eval (stats : PatternStats)
    (pattern day riskLevel : String) (entry : StatEntry) (m : ℚ)
    (hfind : statsFind stats day pattern = some entry)
    (hrisk : riskMultiplierGet riskLevel = some m) :
    calculatePositionSize stats pattern day riskLevel =
      .ok (min ((if entry.returnRate > 0 then
          max 0 (entry.winRate - (1 - entry.winRate) / (entry.returnRate / 0.01))
        else 0) * m) 0.5) := by
  cases stats with
  | nil => simp [statsFind] at hfind
  | cons s ss => simp [calculatePositionSize, hfind, hrisk]

/-- C5: with a stats entry present and a valid risk level, the position
size fraction equals min(max(0, win rate - (1 - win rate) / (return rate /
0.01)) * multiplier, 0.5) with multiplier 0.1 for low, 0.25 for medium and
0.5 for high when the return rate is positive, equals exactly 0 when the
return rate is not positive, and always lies between 0 and 0.5. -/
theorem calculatePositionSize_formula (stats : PatternStats)
    (pattern day riskLevel : String) (entry : StatEntry) (m : ℚ)
    (hfind : statsFind stats day pattern = some entry)
    (hrm : (riskLevel, m) ∈ [("low", (0.1:ℚ)), ("medium", 0.25), ("high", 0.5)]) :
    calculatePositionSize stats pattern day riskLevel =
      .ok (if entry.returnRate > 0 then
          min (max 0 (entry.winRate - (1 - entry.winRate) / (entry.returnRate / 0.01)) * m) 0.5
        else 0) ∧
    (∃ v, calculatePositionSize stats pattern day riskLevel = .ok v ∧
      0 ≤ v ∧ v ≤ 0.5) := by
  have hm : riskMultiplierGet riskLevel = some m ∧ 0 ≤ m := by
    simp only [List.mem_cons, List.not_mem_nil, or_false, Prod.mk.injEq] at hrm
    rcases hrm with ⟨h1, h2⟩ | ⟨h1, h2⟩ | ⟨h1, h2⟩ <;> subst h1 <;> subst h2 <;>
      exact ⟨rfl, by norm_num⟩
  have heval := calculatePositionSize_eval stats pattern day riskLevel entry m hfind hm.1
  constructor
  · rw [heval]
    by_cases hr : entry.returnRate > 0
    · simp [hr]
    · simp only [hr, if_false]
      norm_num
  · refine ⟨_, heval, ?_, min_le_right _ _⟩
    refine le_min ?_ (by norm_num)
    refine mul_nonneg ?_ hm.2
    by_cases hr : entry.returnRate > 0
    · simp only [hr, if_true]
      exact le_max_left 0 _
    · simp [hr]

/-- Witness for C5: win rate 0.6 and return rate 0.01 at risk low give the
Kelly fraction 0.2 scaled to the position size 0.02. -/
theorem calculatePositionSize_formula_witness :
    statsFind [("周日", [("continuous_rise", ⟨0.6, 0.01⟩)])] "周日" "continuous_rise"
      = some ⟨0.6, 0.01⟩ ∧
    calculatePositionSize [("周日", [("continuous_rise", ⟨0.6, 0.01⟩)])]
      "continuous_rise" "周日" "low" = .ok 0.02 ∧
    (∃ v, calculatePositionSize [("周日", [("continuous_rise", ⟨0.6, 0.01⟩)])]
      "continuous_rise" "周日" "low" = .ok v ∧ 0 ≤ v ∧ v ≤ 0.5) := by
  have hfind : statsFind [("周日", [("continuous_rise", (⟨0.6, 0.01⟩ : StatEntry))])]
      "周日" "continuous_rise" = some ⟨0.6, 0.01⟩ := by
    simp [statsFind]
  have h := calculatePositionSize_formula [("周日", [("continuous_rise", ⟨0.6, 0.01⟩)])]
    "continuous_rise" "周日" "low" ⟨0.6, 0.01⟩ 0.1 hfind (by simp)
  refine ⟨hfind, ?_, h.2⟩
  rw [h.1]
  norm_num [min_def, max_def]

/-- C7: with 4 or more points, `analyze_pattern` takes the trend of each half as
its last value exceeding its first and maps the trend pair through the
shared label table; hence any two such series whose half difference signs
agree are classified identically. -/
theorem analyzePattern_halves (p q : List ℚ) (hp : 4 ≤ p.length) (hq : 4 ≤ q.length)
    (h1 : SignType.sign (firstHalfLast p - firstHalfFirst p)
        = SignType.sign (firstHalfLast q - firstHalfFirst q))
    (h2 : SignType.sign (secondHalfLast p - secondHalfFirst p)
        = SignType.sign (secondHalfLast q - secondHalfFirst q)) :
    analyzePattern p
      = trendLabel (decide (firstHalfLast p > firstHalfFirst p))
          (decide (secondHalfLast p > secondHalfFirst p)) ∧
    analyzePattern p = analyzePattern q := by
  have char : ∀ r : List ℚ, 4 ≤ r.length →
      analyzePattern r = trendLabel (decide (firstHalfLast r > firstHalfFirst r))
        (decide (secondHalfLast r > secondHalfFirst r)) := by
    intro r hr
    unfold analyzePattern
    rw [if_neg (by omega), if_neg (by omega), if_pos hr]
  have t1 : (firstHalfFirst p < firstHalfLast p) ↔ (firstHalfFirst q < firstHalfLast q) := by
    rw [← sub_pos, ← sign_eq_one_iff, h1, sign_eq_one_iff, sub_pos]
  have t2 : (secondHalfFirst p < secondHalfLast p) ↔ (secondHalfFirst q < secondHalfLast q) := by
    rw [← sub_pos, ← sign_eq_one_iff, h2, sign_eq_one_iff, sub_pos]
  refine ⟨char p hp, ?_⟩
  rw [char p hp, char q hq, decide_eq_decide.mpr t1, decide_eq_decide.mpr t2]

/-- Witness for C7: the 4 point series 1 2 3 4 and the 5 point series
5 9 2 7 8 have rising halves with positive difference signs, so both
classify the same way. -/
theorem analyzePattern_halves_witness :
    (4 ≤ [(1:ℚ), 2, 3, 4].length) ∧ (4 ≤ [(5:ℚ), 9, 2, 7, 8].length) ∧
    analyzePattern [(1:ℚ), 2, 3, 4]
      = trendLabel
          (decide (firstHalfLast [(1:ℚ), 2, 3, 4] > firstHalfFirst [(1:ℚ), 2, 3, 4]))
          (decide (secondHalfLast [(1:ℚ), 2, 3, 4] > secondHalfFirst [(1:ℚ), 2, 3, 4])) ∧
    analyzePattern [(1:ℚ), 2, 3, 4] = analyzePattern [(5:ℚ), 9, 2, 7, 8] := by
  have h1 : SignType.sign (firstHalfLast [(1:ℚ), 2, 3, 4] - firstHalfFirst [(1:ℚ), 2, 3, 4])
      = SignType.sign (firstHalfLast [(5:ℚ), 9, 2, 7, 8] - firstHalfFirst [(5:ℚ), 9, 2, 7, 8]) := by
    show SignType.sign ((2:ℚ) - 1) = SignType.sign ((9:ℚ) - 5)
    rw [sign_pos (by norm_num), sign_pos (by norm_num)]
  have h2 : SignType.sign (secondHalfLast [(1:ℚ), 2, 3, 4] - secondHalfFirst [(1:ℚ), 2, 3, 4])
      = SignType.sign (secondHalfLast [(5:ℚ), 9, 2, 7, 8] - secondHalfFirst [(5:ℚ), 9, 2, 7, 8]) := by
    show SignType.sign ((4:ℚ) - 3) = SignType.sign ((8:ℚ) - 2)
    rw [sign_pos (by norm_num), sign_pos (by norm_num)]
  have h := analyzePattern_halves [(1:ℚ), 2, 3, 4] [(5:ℚ), 9, 2, 7, 8]
    (by norm_num) (by norm_num) h1 h2
  exact ⟨by norm_num, by norm_num, h.1, h.2⟩

/-- Core evaluation of `should_trade` for at least 2 price points and a
valid risk level: a found entry with win rate above 0.55 and no veto yields
a long approval, and otherwise the refusal triple is returned. -/
theorem shouldTrade_eval (stats : PatternStats) (prices : List ℚ)
    (day riskLevel : String) (m : ℚ)
    (hrisk : riskMultiplierGet riskLevel = some m) (hlen : 2 ≤ prices.length) :
    (∀ entry, statsFind stats (prevDayOf day) (analyzePattern prices) = some entry →
      entry.winRate > 0.55 → ¬ forbiddenPair (prevDayOf day) (analyzePattern prices) →
      ∃ s, shouldTrade stats prices day riskLevel = .ok (true, "long", s)) ∧
    ((¬ ∃ entry, statsFind stats (prevDayOf day) (analyzePattern prices) = some entry ∧
        entry.winRate > 0.55 ∧ ¬ forbiddenPair (prevDayOf day) (analyzePattern prices)) →
      shouldTrade stats prices day riskLevel = .ok (false, "none", 0)) := by
  have hnl : ¬ prices.length < 2 := by omega
  unfold prevDayOf
  unfold shouldTrade
  rw [if_neg hnl]
  dsimp only
  cases stats with
  | nil =>
      constructor
      · intro entry hfind
        simp [statsFind] at hfind
      · intro _
        rfl
  | cons s ss =>
      rw [if_neg (by simp : ¬ ((s :: ss).isEmpty = true))]
      by_cases hf : forbiddenPair (previousDayMapGet (weekdayMapGet day)) (analyzePattern prices)
      · rw [if_pos hf]
        exact ⟨fun _ _ _ hnf => absurd hf hnf, fun _ => rfl⟩
      · rw [if_neg hf]
        cases hs : statsFind (s :: ss) (previousDayMapGet (weekdayMapGet day))
            (analyzePattern prices) with
        | none =>
            constructor
            · intro entry hfind
              exact absurd hfind (by simp)
            · intro _
              rfl
        | some e =>
            dsimp only
            by_cases hw : e.winRate > 0.55
            · rw [if_pos hw]
              obtain ⟨v, hv⟩ := calculatePositionSize_isOk (s :: ss) (analyzePattern prices)
                (previousDayMapGet (weekdayMapGet day)) riskLevel m hrisk
              rw [hv]
              constructor
              · intro entry _ _ _
                exact ⟨v, rfl⟩
              · intro hn
                exact absurd ⟨e, rfl, hw, hf⟩ hn
            · rw [if_neg hw]
              constructor
              · intro entry hfind hwin _
                cases hfind
                exact absurd hwin hw
              · intro _
                rfl

/-- C1: for a price history of at least 2 points, a recognized day of the
week and a valid risk level, `should_trade` approves a long trade exactly
when the stats entry for the cyclic previous day and the classified
pattern exists, has win rate strictly above 0.55, and the pair is not on
the deny-list; in every other case it returns (false, none, 0); and the
previous day of Monday is Sunday, of Sunday Saturday. -/
theorem shouldTrade_gate (stats : PatternStats) (prices : List ℚ)
    (day riskLevel : String) (m : ℚ) (hday : day ∈ weekDays)
    (hrisk : riskMultiplierGet riskLevel = some m) (hlen : 2 ≤ prices.length) :
    ((∃ s, shouldTrade stats prices day riskLevel = .ok (true, "long", s)) ↔
      (∃ entry, statsFind stats (prevDayOf day) (analyzePattern prices) = some entry ∧
        entry.winRate > 0.55 ∧
        ¬ forbiddenPair (prevDayOf day) (analyzePattern prices))) ∧
    ((¬ ∃ entry, statsFind stats (prevDayOf day) (analyzePattern prices) = some entry ∧
        entry.winRate > 0.55 ∧
        ¬ forbiddenPair (prevDayOf day) (analyzePattern prices)) →
      shouldTrade stats prices day riskLevel = .ok (false, "none", 0)) ∧
    prevDayOf "Monday" = "周日" ∧ prevDayOf "Sunday" = "周六" := by
  obtain ⟨hpos, hneg⟩ := shouldTrade_eval stats prices day riskLevel m hrisk hlen
  refine ⟨⟨?_, ?_⟩, hneg, by decide, by decide⟩
  · rintro ⟨s, hss⟩
    by_contra hn
    rw [hneg hn] at hss
    simp at hss
  · rintro ⟨entry, hfind, hwin, hnf⟩
    exact hpos entry hfind hwin hnf

/-- Witness for C1: on Monday with a two point rise and a stats entry for
Sunday with win rate 0.65, `should_trade` approves a long trade. -/
theorem shouldTrade_gate_witness :
    ("Monday" ∈ weekDays) ∧ riskMultiplierGet "low" = some 0.1 ∧
    (2 ≤ [(100:ℚ), 105].length) ∧
    (∃ s, shouldTrade [("周日", [("continuous_rise", ⟨0.65, 0.008⟩)])] [(100:ℚ), 105]
      "Monday" "low" = .ok (true, "long", s)) := by
  have hpd : prevDayOf "Monday" = "周日" := by decide
  have hpat : analyzePattern [(100:ℚ), 105] = "continuous_rise" := by
    norm_num [analyzePattern]
  have h := shouldTrade_gate [("周日", [("continuous_rise", ⟨0.65, 0.008⟩)])]
    [(100:ℚ), 105] "Monday" "low" 0.1 (by decide) rfl (by norm_num)
  refine ⟨by decide, rfl, by norm_num, ?_⟩
  refine h.1.mpr ⟨⟨0.65, 0.008⟩, ?_, by norm_num, ?_⟩
  · rw [hpd, hpat]
    simp [statsFind]
  · rw [hpd, hpat]
    decide

end PatternStrategy
